import Mathlib

/-!
Shallow embedding of the async-clear-core-client protocol codec and motor
state machine (src/lib.rs, src/controller.rs, src/motor.rs, src/send_recv.rs).

Bytes are modelled as Nat, byte buffers as List Nat.  Rust functions that can
panic (out-of-bounds indexing, a failed expect) are embedded as Option-valued
functions where the value none models the panic.  Fallible functions return
Except CCError inside that Option.  Floating-point arguments (f64) are
embedded as rationals; at every input considered by a theorem in this file the
f64 arithmetic of the source is exact, so the rational model agrees with it.
-/

namespace CC

/-- Embeds the closure predicate (48..=57).contains(x) used by ascii_to_int
in src/lib.rs to keep only ASCII digit bytes. -/
def isDigitByte (x : Nat) : Bool := 48 ≤ x && x ≤ 57

/-- Embeds the fold body of ascii_to_int (src/lib.rs lines 16-21):
acc = acc * 10 + (x - 48).  The subtraction is on a byte already known to be
a digit, so Nat subtraction agrees with the u8 subtraction of the source. -/
def digitStep (acc : Int) (x : Nat) : Int := acc * 10 + ((x - 48 : Nat) : Int)

/-- Embeds ascii_to_int (src/lib.rs lines 11-23).  The source reads bytes[0]
unconditionally, which panics on an empty buffer: that panic is the value
none.  Otherwise the sign is -1 exactly when byte 0 is 45 (the ASCII minus),
every digit byte of the whole buffer is folded left to right with digitStep,
every non-digit byte is discarded by the filter, and the result is the folded
magnitude times the sign.  The source accumulates in isize; Int models it
(no input in this development approaches the isize range). -/
def ascii_to_int : List Nat → Option Int
  | [] => none
  | b0 :: rest =>
    some (((b0 :: rest).filter isDigitByte).foldl digitStep 0 *
      (if b0 = 45 then -1 else 1))

/-- Embeds the digit-emitting loop of integer-to-decimal-string conversion
(the ToString call inside num_to_bytes, src/lib.rs lines 7-9): peel base-10
digits from the least significant end, prepending each ASCII digit byte.
The first argument is structural fuel; any fuel at least the digit count of n
(in particular fuel = n) yields the full representation. -/
def natToAsciiAux : Nat → Nat → List Nat → List Nat
  | _, 0, acc => acc
  | 0, _ + 1, acc => acc
  | fuel + 1, n + 1, acc =>
    natToAsciiAux fuel ((n + 1) / 10) (((n + 1) % 10 + 48) :: acc)

/-- ASCII decimal representation of a Nat, as produced by Rust ToString:
zero prints as the single byte 48. -/
def natToAscii (n : Nat) : List Nat :=
  if n = 0 then [48] else natToAsciiAux n n []

/-- Embeds num_to_bytes (src/lib.rs lines 7-9) at integer arguments: the
decimal ToString representation of an isize, one byte per character, with a
leading 45 exactly for negative numbers. -/
def num_to_bytes (n : Int) : List Nat :=
  if n < 0 then 45 :: natToAscii n.natAbs else natToAscii n.natAbs

/-- A UTF-8 continuation byte (high bits 10). -/
def isCont (b : Nat) : Bool := 128 ≤ b && b ≤ 191

/-- Embeds the validity test performed by std::str::from_utf8 in check_reply
(src/controller.rs line 57): a byte buffer is valid UTF-8 iff it is a
sequence of well-formed scalar-value encodings (ASCII, 2-, 3- or 4-byte
forms, with the shortest-form and surrogate restrictions of the standard). -/
def validUtf8 : List Nat → Bool
  | [] => true
  | b :: rest =>
    if b ≤ 127 then validUtf8 rest
    else if 194 ≤ b && b ≤ 223 then
      match rest with
      | c :: r => isCont c && validUtf8 r
      | [] => false
    else if b = 224 then
      match rest with
      | c :: d :: r => (160 ≤ c && c ≤ 191) && isCont d && validUtf8 r
      | _ => false
    else if (225 ≤ b && b ≤ 236) || (238 ≤ b && b ≤ 239) then
      match rest with
      | c :: d :: r => isCont c && isCont d && validUtf8 r
      | _ => false
    else if b = 237 then
      match rest with
      | c :: d :: r => (128 ≤ c && c ≤ 159) && isCont d && validUtf8 r
      | _ => false
    else if b = 240 then
      match rest with
      | c :: d :: e :: r => (144 ≤ c && c ≤ 191) && isCont d && isCont e && validUtf8 r
      | _ => false
    else if 241 ≤ b && b ≤ 243 then
      match rest with
      | c :: d :: e :: r => isCont c && isCont d && isCont e && validUtf8 r
      | _ => false
    else if b = 244 then
      match rest with
      | c :: d :: e :: r => (128 ≤ c && c ≤ 143) && isCont d && isCont e && validUtf8 r
      | _ => false
    else false

/-- The error payloads produced by the embedded operations, as far as any
claim inspects them:
protocolFailure carries the full reply buffer, standing for the String built
by str::from_utf8(reply) in check_reply (on valid UTF-8 the decoded text is
byte-for-byte the reply, so the buffer represents the text verbatim);
utf8Error stands for the Utf8Error converted through the From impl of
controller::Error when from_utf8 fails;
unknownStatus stands for the anyhow error built in get_status;
motorFaulted stands for the anyhow error built in enable. -/
inductive CCError
  | protocolFailure (text : List Nat)
  | utf8Error
  | unknownStatus
  | motorFaulted
deriving DecidableEq

/-- Embeds check_reply (src/controller.rs lines 54-62).  The source indexes
reply[REPLY_IDX] with REPLY_IDX = 3 unconditionally: a reply shorter than 4
bytes panics, modelled by none.  If the byte at offset 3 equals
FAILED_REPLY = 63 (ASCII question mark) the result is an error carrying the
reply text when the buffer is valid UTF-8, and the propagated Utf8Error
otherwise; any other byte at offset 3 is success. -/
def check_reply (reply : List Nat) : Option (Except CCError Unit) :=
  match reply[3]? with
  | none => none
  | some b =>
    if b = 63 then
      some (Except.error
        (if validUtf8 reply then CCError.protocolFailure reply else CCError.utf8Error))
    else
      some (Except.ok ())

/-- Embeds the motor Status enumeration (src/motor.rs lines 20-27). -/
inductive Status
  | Disabled
  | Enabling
  | Faulted
  | Ready
  | Moving
deriving DecidableEq

/-- The ASCII digit that get_status recognizes for each status: the inverse
reading of the match arms in src/motor.rs lines 182-190, and the table of
spec section 6. -/
def statusByte : Status → Nat
  | .Disabled => 48
  | .Enabling => 49
  | .Faulted => 50
  | .Ready => 51
  | .Moving => 52

/-- Embeds the match over res[3] in get_status (src/motor.rs lines 182-190):
bytes 48..52 give the five states, anything else the unknownStatus error. -/
def decode_status_byte (b : Nat) : Except CCError Status :=
  if b = 48 then Except.ok Status.Disabled
  else if b = 49 then Except.ok Status.Enabling
  else if b = 50 then Except.ok Status.Faulted
  else if b = 51 then Except.ok Status.Ready
  else if b = 52 then Except.ok Status.Moving
  else Except.error CCError.unknownStatus

/-- Embeds the reply handling of get_status (src/motor.rs lines 179-191) as a
function of the raw reply: the source indexes res[3] unconditionally (none
models the panic on a reply shorter than 4 bytes) and decodes that byte.
Note that get_status does not call check_reply first. -/
def get_status (res : List Nat) : Option (Except CCError Status) :=
  (res[3]?).map decode_status_byte

/-- Embeds the reply handling of get_position (src/motor.rs lines 193-198) as
a function of the motor's scale and the raw reply: check_reply first, then
ascii_to_int applied to the WHOLE reply buffer (res.as_slice(), header bytes
included), the result divided by the scale.  The f64 division of the source
is modelled by exact rational division. -/
def get_position (scale : Nat) (res : List Nat) : Option (Except CCError ℚ) :=
  match check_reply res with
  | none => none
  | some (Except.error e) => some (Except.error e)
  | some (Except.ok _) =>
    match ascii_to_int res with
    | none => none
    | some n => some (Except.ok ((n : ℚ) / (scale : ℚ)))

/-- Embeds make_prefix (src/controller.rs lines 64-66):
[STX, device type byte, ASCII digit of the device id]. -/
def make_prefix (device_type device_id : Nat) : List Nat :=
  [2, device_type, device_id + 48]

/-- Truncation of a rational toward zero, embedding the f64::trunc() ... as
isize conversion of the source (exact at every input used here). -/
def truncToward0 (q : ℚ) : Int := q.num.tdiv (q.den : Int)

/-- Embeds the command buffer of enable (src/motor.rs line 56). -/
def enable_cmd (id : Nat) : List Nat := [2, 77, id + 48, 69, 78, 13]

/-- Embeds the command buffer of disable (src/motor.rs line 72). -/
def disable_cmd (id : Nat) : List Nat := [2, 77, id + 48, 68, 69, 13]

/-- Embeds the command buffer of abrupt_stop (src/motor.rs line 115). -/
def abrupt_stop_cmd (id : Nat) : List Nat := [2, 77, id + 48, 65, 83, 13]

/-- Embeds the command buffer of stop (src/motor.rs line 122). -/
def stop_cmd (id : Nat) : List Nat := [2, 77, id + 48, 83, 84, 13]

/-- Embeds the command buffer of get_status (src/motor.rs line 180). -/
def get_status_cmd (id : Nat) : List Nat := [2, 77, id + 48, 71, 83, 13]

/-- Embeds the command buffer of get_position (src/motor.rs line 194). -/
def get_position_cmd (id : Nat) : List Nat := [2, 77, id + 48, 71, 80, 13]

/-- Embeds the command buffer of clear_alerts (src/motor.rs line 201). -/
def clear_alerts_cmd (id : Nat) : List Nat := [2, 77, id + 48, 67, 65, 13]

/-- Embeds the command buffer built by absolute_move (src/motor.rs lines
78-88): prefix [2, 77, id+48], code AM, the decimal bytes of
trunc(position * scale), and the CR terminator. -/
def absolute_move_msg (id scale : Nat) (position : ℚ) : List Nat :=
  make_prefix 77 id ++ [65, 77] ++ num_to_bytes (truncToward0 (position * scale)) ++ [13]

/-- Embeds the command buffer built by relative_move (src/motor.rs lines
90-100), code RM. -/
def relative_move_msg (id scale : Nat) (position : ℚ) : List Nat :=
  make_prefix 77 id ++ [82, 77] ++ num_to_bytes (truncToward0 (position * scale)) ++ [13]

/-- Embeds the command buffer built by jog (src/motor.rs lines 102-112),
code JG. -/
def jog_msg (id scale : Nat) (speed : ℚ) : List Nat :=
  make_prefix 77 id ++ [74, 71] ++ num_to_bytes (truncToward0 (speed * scale)) ++ [13]

/-- Embeds the command buffer built by set_position (src/motor.rs lines
128-138), code SP; the argument is an isize, multiplied exactly. -/
def set_position_msg (id scale : Nat) (position : Int) : List Nat :=
  make_prefix 77 id ++ [83, 80] ++ num_to_bytes (position * scale) ++ [13]

/-- Embeds the command buffer built by set_velocity (src/motor.rs lines
140-153), code SV: the argument is clamped to at least 0 before scaling. -/
def set_velocity_msg (id scale : Nat) (velocity : ℚ) : List Nat :=
  let v := if velocity < 0 then 0 else velocity
  make_prefix 77 id ++ [83, 86] ++ num_to_bytes (truncToward0 (v * scale)) ++ [13]

/-- Embeds the command buffer built by set_acceleration (src/motor.rs lines
155-165), code SA. -/
def set_acceleration_msg (id scale : Nat) (acceleration : ℚ) : List Nat :=
  make_prefix 77 id ++ [83, 65] ++ num_to_bytes (truncToward0 (acceleration * scale)) ++ [13]

/-- Embeds the command buffer built by set_deceleration (src/motor.rs lines
167-177), code SD. -/
def set_deceleration_msg (id scale : Nat) (deceleration : ℚ) : List Nat :=
  make_prefix 77 id ++ [83, 68] ++ num_to_bytes (truncToward0 (deceleration * scale)) ++ [13]

/-- Outcome of the status-polling loop of enable (src/motor.rs lines 59-63).
panicked: some get_status call indexed past the end of its reply;
failed e: some get_status call returned an error, propagated by the question
mark operator in the loop condition;
exited j: the loop observed a non-Enabling status and exited, with j the
index of the next unconsumed status reply;
outOfFuel: the fuel bound was hit before the loop exited (the source loop
would still be running). -/
inductive PollResult
  | panicked
  | failed (e : CCError)
  | exited (next : Nat)
  | outOfFuel
deriving DecidableEq

/-- Embeds the while loop of enable (src/motor.rs lines 61-63): repeatedly
query status (σ i is the raw reply to the i-th get_status round-trip of this
call) while it decodes to the target status.  Each iteration consumes one
reply; fuel bounds the number of iterations modelled. -/
def pollWhile (target : Status) (σ : Nat → List Nat) : Nat → Nat → PollResult
  | _, 0 => PollResult.outOfFuel
  | i, fuel + 1 =>
    match get_status (σ i) with
    | none => PollResult.panicked
    | some (Except.error e) => PollResult.failed e
    | some (Except.ok s) =>
      if s = target then pollWhile target σ (i + 1) fuel
      else PollResult.exited (i + 1)

/-- Outcome of one enable call (src/motor.rs lines 55-69). -/
inductive EnableResult
  | panicked
  | failed (e : CCError)
  | ok
  | outOfFuel
deriving DecidableEq

/-- Embeds enable (src/motor.rs lines 55-69) as a function of the raw reply
to the EN command and of the sequence of raw replies to the successive
get_status round-trips: check the EN reply, poll while the status is
Enabling, then query status once more and fail with motorFaulted exactly
when that last query decodes to Faulted. -/
def enable (enReply : List Nat) (σ : Nat → List Nat) (fuel : Nat) : EnableResult :=
  match check_reply enReply with
  | none => EnableResult.panicked
  | some (Except.error e) => EnableResult.failed e
  | some (Except.ok _) =>
    match pollWhile Status.Enabling σ 0 fuel with
    | PollResult.panicked => EnableResult.panicked
    | PollResult.failed e => EnableResult.failed e
    | PollResult.outOfFuel => EnableResult.outOfFuel
    | PollResult.exited j =>
      match get_status (σ j) with
      | none => EnableResult.panicked
      | some (Except.error e) => EnableResult.failed e
      | some (Except.ok s) =>
        if s = Status.Faulted then EnableResult.failed CCError.motorFaulted
        else EnableResult.ok

/-- The possible outcomes of SendRecv::write (src/send_recv.rs lines 8-24).
The return type of the source is Vec of u8 — there is no error variant: the
only alternative to returning the reply bytes is the panic raised by the
expect call on the closed reply channel. -/
inductive WriteOutcome
  | reply (bytes : List Nat)
  | panicNoMsgFromClient
deriving DecidableEq

/-- Embeds SendRecv::write (src/send_recv.rs lines 8-24) as a function of
what the oneshot reply channel delivers: some bytes when the dispatcher sent
a reply, none when the channel was closed without one (transport failure).
On some r the reply is returned verbatim; on none the expect call panics
with the message No MSG from client.  (A failed send on the request queue is
only logged and then leads to the same closed-channel panic.) -/
def write (channelRecv : Option (List Nat)) : WriteOutcome :=
  match channelRecv with
  | some r => WriteOutcome.reply r
  | none => WriteOutcome.panicNoMsgFromClient

/-- The HBridge handle. Its type lives in src/io.rs, which is not part of the
sources here; the claims only need the constructor arguments visible at the
call sites in ControllerHandle::new (src/controller.rs lines 107-110):
an id and a scale. -/
structure HBridge where
  id : Nat
  scale : Nat
deriving DecidableEq

/-- The h_bridges array built by ControllerHandle::new (src/controller.rs
lines 107-110): exactly two handles, with ids 4 and 5 and scale 32700. -/
def h_bridges : List HBridge := [HBridge.mk 4 32700, HBridge.mk 5 32700]

/-- Embeds get_h_bridge (src/controller.rs lines 152-155): idx = id - 4 on
usize, then h_bridges[idx].  For id below 4 the unsigned subtraction
underflows (a panic in debug builds; in release it wraps to a value far past
the array bound and the indexing panics), and for idx at least 2 the
indexing itself panics: both panics are the value none. -/
def get_h_bridge (id : Nat) : Option HBridge :=
  if id < 4 then none
  else h_bridges[id - 4]?

/-! Helper lemmas about the decimal printer and the integer parser. -/

lemma truncToward0_intCast (n : Int) : truncToward0 ((n : ℚ)) = n := by
  simp [truncToward0, Rat.num_intCast, Rat.den_intCast, Int.tdiv_one]

lemma natToAsciiAux_append (fuel : Nat) : ∀ (n : Nat) (acc : List Nat),
    natToAsciiAux fuel n acc = natToAsciiAux fuel n [] ++ acc := by
  induction fuel with
  | zero =>
    intro n acc
    cases n <;> simp [natToAsciiAux]
  | succ fuel ih =>
    intro n acc
    cases n with
    | zero => simp [natToAsciiAux]
    | succ m =>
      rw [natToAsciiAux, natToAsciiAux, ih _ (((m + 1) % 10 + 48) :: acc),
        ih _ [(m + 1) % 10 + 48]]
      simp

lemma natToAsciiAux_digits (fuel : Nat) : ∀ (n : Nat) (acc : List Nat),
    (∀ d ∈ acc, isDigitByte d = true) →
    ∀ d ∈ natToAsciiAux fuel n acc, isDigitByte d = true := by
  induction fuel with
  | zero =>
    intro n acc hacc
    cases n <;> simpa [natToAsciiAux] using hacc
  | succ fuel ih =>
    intro n acc hacc
    cases n with
    | zero => simpa [natToAsciiAux] using hacc
    | succ m =>
      rw [natToAsciiAux]
      refine ih _ _ ?_
      intro d hd
      rcases List.mem_cons.mp hd with h | h
      · subst h
        simp [isDigitByte]
        omega
      · exact hacc d h

lemma natToAsciiAux_foldl (fuel : Nat) : ∀ (n : Nat), n ≤ fuel → ∀ (a : Int),
    (natToAsciiAux fuel n []).foldl digitStep a =
      a * 10 ^ (natToAsciiAux fuel n []).length + n := by
  induction fuel with
  | zero =>
    intro n hn a
    interval_cases n
    simp [natToAsciiAux]
  | succ fuel ih =>
    intro n hn a
    cases n with
    | zero => simp [natToAsciiAux]
    | succ m =>
      have hdiv : (m + 1) / 10 ≤ fuel := by
        have := Nat.div_lt_self (Nat.succ_pos m) (by omega : 1 < 10)
        omega
      rw [natToAsciiAux, natToAsciiAux_append]
      rw [List.foldl_append, ih _ hdiv a, List.length_append]
      have hd : ((m + 1) % 10 + 48 - 48 : Nat) = (m + 1) % 10 := by omega
      simp only [List.foldl_cons, List.foldl_nil, List.length_cons,
        List.length_nil, digitStep, hd]
      rw [pow_succ]
      set L : Int := 10 ^ (natToAsciiAux fuel ((m + 1) / 10) []).length with hL
      have hmod : ((m + 1) / 10 : Int) * 10 + ((m + 1) % 10 : Nat) = ((m + 1 : Nat) : Int) := by
        push_cast
        omega
      push_cast
      push_cast at hmod
      nlinarith [hmod]

lemma natToAscii_digits (n : Nat) : ∀ d ∈ natToAscii n, isDigitByte d = true := by
  unfold natToAscii
  split
  · intro d hd
    simp at hd
    subst hd
    decide
  · exact natToAsciiAux_digits n n [] (by intro d hd; simp at hd)

lemma natToAscii_ne_nil (n : Nat) : natToAscii n ≠ [] := by
  unfold natToAscii
  split
  · simp
  · next h =>
    cases n with
    | zero => exact absurd rfl h
    | succ m =>
      rw [natToAsciiAux, natToAsciiAux_append]
      simp

lemma natToAscii_foldl (n : Nat) : (natToAscii n).foldl digitStep 0 = n := by
  unfold natToAscii
  split
  · next h => subst h; simp [digitStep]
  · rw [natToAsciiAux_foldl n n (le_refl n) 0]
    simp

lemma natToAscii_filter (n : Nat) :
    (natToAscii n).filter isDigitByte = natToAscii n :=
  List.filter_eq_self.mpr (natToAscii_digits n)

/-- The printer emits a representation the parser maps back to the number:
ascii_to_int (num_to_bytes n ++ [13]) = some n for every integer n. -/
lemma ascii_to_int_num_to_bytes (n : Int) :
    ascii_to_int (num_to_bytes n ++ [13]) = some n := by
  by_cases hn : n < 0
  · simp only [num_to_bytes, if_pos hn, List.cons_append]
    rw [ascii_to_int]
    have hfilter : ((45 :: (natToAscii n.natAbs ++ [13])).filter isDigitByte) =
        natToAscii n.natAbs := by
      rw [List.filter_cons, List.filter_append]
      simp [isDigitByte, natToAscii_filter]
    have h45 : (if (45 : Nat) = 45 then (-1 : Int) else 1) = -1 := by norm_num
    rw [hfilter, natToAscii_foldl, h45]
    congr 1
    omega
  · obtain ⟨b, bs, hbs⟩ : ∃ b bs, natToAscii n.natAbs = b :: bs := by
      rcases h : natToAscii n.natAbs with _ | ⟨b, bs⟩
      · exact absurd h (natToAscii_ne_nil n.natAbs)
      · exact ⟨b, bs, rfl⟩
    have hb : isDigitByte b = true := natToAscii_digits n.natAbs b (by rw [hbs]; simp)
    have hb45 : b ≠ 45 := by
      simp [isDigitByte] at hb
      omega
    simp only [num_to_bytes, if_neg hn, hbs, List.cons_append]
    rw [ascii_to_int]
    have hfilter : ((b :: (bs ++ [13])).filter isDigitByte) = b :: bs := by
      have : (b :: (bs ++ [13])) = (b :: bs) ++ [13] := by simp
      rw [this, List.filter_append]
      have h1 : List.filter isDigitByte [13] = [] := by decide
      rw [h1, List.append_nil, ← hbs, natToAscii_filter]
    rw [hfilter, ← hbs, natToAscii_foldl]
    simp only [if_neg hb45]
    congr 1
    omega

/-- Appending a non-digit byte (such as the CR terminator) to a nonempty
buffer does not change what ascii_to_int returns. -/
lemma ascii_to_int_append_nondigit (b : Nat) (bs : List Nat) (t : Nat)
    (ht : isDigitByte t = false) :
    ascii_to_int ((b :: bs) ++ [t]) = ascii_to_int (b :: bs) := by
  rw [List.cons_append, ascii_to_int, ascii_to_int]
  have hfilter : ((b :: (bs ++ [t])).filter isDigitByte) =
      ((b :: bs).filter isDigitByte) := by
    have : (b :: (bs ++ [t])) = (b :: bs) ++ [t] := by simp
    rw [this, List.filter_append]
    simp [List.filter_cons, ht]
  rw [hfilter]

lemma decode_status_byte_eq_ok (b : Nat) (s : Status) :
    decode_status_byte b = Except.ok s ↔ b = statusByte s := by
  cases s <;>
    (unfold decode_status_byte statusByte; split_ifs <;> simp_all)

lemma pollWhile_exits (σ : Nat → List Nat) (s : Nat → Status)
    (hσ : ∀ j, get_status (σ j) = some (Except.ok (s j))) :
    ∀ (fuel i n : Nat), i ≤ n →
      (∀ j, i ≤ j → j < n → s j = Status.Enabling) →
      s n ≠ Status.Enabling → n - i < fuel →
      pollWhile Status.Enabling σ i fuel = PollResult.exited (n + 1) := by
  intro fuel
  induction fuel with
  | zero => intro i n _ _ _ h; omega
  | succ fuel ih =>
    intro i n hin henb hn hfuel
    rw [pollWhile, hσ i]
    by_cases hi : i = n
    · subst hi
      simp [hn]
    · have hilt : i < n := by omega
      have hsi : s i = Status.Enabling := henb i (le_refl i) hilt
      simp only [hsi, if_pos rfl]
      exact ih (i + 1) n (by omega) (fun j hj1 hj2 => henb j (by omega) hj2) hn (by omega)

/-! Claim theorems. -/

/-- C1: the claim says get_position parses the signed integer from the reply
payload (offset 3 onward) and divides by the scale, so with scale 1000 a
reply whose payload encodes -2500 must give -5/2.  The code instead feeds the
WHOLE reply to ascii_to_int: the sign is only recognized at byte 0 (which
holds STX, not a minus), the minus at offset 3 is discarded by the digit
filter, and the device-index digit at byte 2 is folded into the magnitude.
On the reply STX M 0 - 2 5 0 0 CR with scale 1000 the code returns 5/2, and
on STX M 2 - 2 5 0 0 CR it returns 45/2 — never the claimed -5/2. -/
theorem C1_get_position_bug :
    get_position 1000 [2, 77, 48, 45, 50, 53, 48, 48, 13] = some (Except.ok ((5 : ℚ) / 2))
    ∧ get_position 1000 [2, 77, 50, 45, 50, 53, 48, 48, 13] = some (Except.ok ((45 : ℚ) / 2))
    ∧ ((5 : ℚ) / 2) ≠ ((-5 : ℚ) / 2)
    ∧ ((45 : ℚ) / 2) ≠ ((-5 : ℚ) / 2) := by
  refine ⟨?_, ?_, by norm_num, by norm_num⟩
  · have hc : check_reply [2, 77, 48, 45, 50, 53, 48, 48, 13] = some (Except.ok ()) := rfl
    have ha : ascii_to_int [2, 77, 48, 45, 50, 53, 48, 48, 13] = some 2500 := by decide
    simp only [get_position, hc, ha]
    norm_num
  · have hc : check_reply [2, 77, 50, 45, 50, 53, 48, 48, 13] = some (Except.ok ()) := rfl
    have ha : ascii_to_int [2, 77, 50, 45, 50, 53, 48, 48, 13] = some 22500 := by decide
    simp only [get_position, hc, ha]
    norm_num

/-- C2: ascii_to_int treats a leading minus byte as a negative sign,
accumulates the digit bytes left to right as a base-10 magnitude, ignores
non-digit bytes such as a trailing terminator, and applies the sign at the
end: appending a non-digit byte never changes the result, the parser inverts
the decimal printer on every integer, and the three concrete examples of the
spec hold. -/
theorem C2_ascii_to_int_spec :
    (∀ (b : Nat) (bs : List Nat) (t : Nat), isDigitByte t = false →
      ascii_to_int ((b :: bs) ++ [t]) = ascii_to_int (b :: bs))
    ∧ (∀ n : Int, ascii_to_int (num_to_bytes n ++ [13]) = some n)
    ∧ ascii_to_int [45, 49, 50, 51, 13] = some (-123)
    ∧ ascii_to_int [48, 48, 52, 53] = some 45
    ∧ ascii_to_int [48] = some 0 :=
  ⟨ascii_to_int_append_nondigit, ascii_to_int_num_to_bytes,
    by decide, by decide, by decide⟩

/-- C2 witness: the non-digit-suffix conjunct applied at the concrete buffer
for -123 with the CR terminator, and the printer-parser round trip at -123. -/
theorem C2_ascii_to_int_witness :
    ascii_to_int ([45, 49, 50, 51] ++ [13]) = ascii_to_int [45, 49, 50, 51]
    ∧ ascii_to_int (num_to_bytes (-123) ++ [13]) = some (-123) :=
  ⟨C2_ascii_to_int_spec.1 45 [49, 50, 51] 13 (by decide),
    C2_ascii_to_int_spec.2.1 (-123)⟩

/-- C3 counterexample: on the reply STX M 0 ? CR, whose byte at offset 3 is
the failure marker, get_status does not fail with the verbatim reply text —
it returns the fixed unknown-status decode error, because get_status never
calls check_reply. -/
theorem C3_get_status_not_verbatim :
    get_status [2, 77, 48, 63, 13] = some (Except.error CCError.unknownStatus)
    ∧ CCError.unknownStatus ≠ CCError.protocolFailure [2, 77, 48, 63, 13] :=
  ⟨rfl, by decide⟩

/-- C3 (amended): for a reply whose byte at offset 3 is the failure marker 63,
every operation that decodes the reply through check_reply fails with an
error carrying the full reply buffer verbatim when the buffer is valid UTF-8
(and with the propagated UTF-8 decode error otherwise); a reply whose byte at
offset 3 is not 63 is never treated as a protocol failure by check_reply.
get_status, however, does not go through check_reply: on the failure marker
it fails with the fixed unknown-status decode error instead of the reply
text. -/
theorem C3_check_reply_failure_marker :
    (∀ reply : List Nat, reply[3]? = some 63 → validUtf8 reply = true →
      check_reply reply = some (Except.error (CCError.protocolFailure reply)))
    ∧ (∀ reply : List Nat, reply[3]? = some 63 → validUtf8 reply = false →
      check_reply reply = some (Except.error CCError.utf8Error))
    ∧ (∀ (reply : List Nat) (b : Nat), reply[3]? = some b → b ≠ 63 →
      check_reply reply = some (Except.ok ()))
    ∧ (∀ reply : List Nat, reply[3]? = some 63 →
      get_status reply = some (Except.error CCError.unknownStatus)) := by
  refine ⟨?_, ?_, ?_, ?_⟩
  · intro reply h hv
    simp [check_reply, h, hv]
  · intro reply h hv
    simp [check_reply, h, hv]
  · intro reply b h hb
    simp [check_reply, h, hb]
  · intro reply h
    simp [get_status, h]
    rfl

/-- C3 witness: the amended theorem applied at the concrete failure reply
STX M 0 ? CR (valid UTF-8) and at the concrete success reply STX M 0 A CR. -/
theorem C3_check_reply_witness :
    check_reply [2, 77, 48, 63, 13] =
      some (Except.error (CCError.protocolFailure [2, 77, 48, 63, 13]))
    ∧ check_reply [2, 77, 48, 65, 13] = some (Except.ok ()) :=
  ⟨C3_check_reply_failure_marker.1 [2, 77, 48, 63, 13] (by decide) (by decide),
    C3_check_reply_failure_marker.2.2.1 [2, 77, 48, 65, 13] 65 (by decide) (by decide)⟩

/-- C4: get_status maps the reply byte at offset 3 bijectively onto the five
states — 48 to Disabled, 49 to Enabling, 50 to Faulted, 51 to Ready, 52 to
Moving — and for every other byte at offset 3 it returns the unknown-status
decode error, never a state value. -/
theorem C4_get_status_mapping :
    (∀ (reply : List Nat) (s : Status),
      get_status reply = some (Except.ok s) ↔ reply[3]? = some (statusByte s))
    ∧ (∀ s t : Status, statusByte s = statusByte t → s = t)
    ∧ (∀ (reply : List Nat) (b : Nat), reply[3]? = some b →
      b ≠ 48 → b ≠ 49 → b ≠ 50 → b ≠ 51 → b ≠ 52 →
      get_status reply = some (Except.error CCError.unknownStatus)) := by
  refine ⟨?_, ?_, ?_⟩
  · intro reply s
    cases h : reply[3]? with
    | none => simp [get_status, h]
    | some b =>
      simp only [get_status, h, Option.map_some', Option.some.injEq]
      rw [decode_status_byte_eq_ok]
  · intro s t h
    cases s <;> cases t <;> simp_all [statusByte]
  · intro reply b h h48 h49 h50 h51 h52
    simp only [get_status, h, Option.map_some', Option.some.injEq]
    unfold decode_status_byte
    split_ifs <;> simp_all

/-- C4 witness: the mapping applied at the concrete Ready reply STX M 0 3 CR
and the decode-error conjunct applied at the unrecognized digit 57. -/
theorem C4_get_status_witness :
    get_status [2, 77, 48, 51, 13] = some (Except.ok Status.Ready)
    ∧ get_status [2, 77, 48, 57, 13] = some (Except.error CCError.unknownStatus) :=
  ⟨(C4_get_status_mapping.1 [2, 77, 48, 51, 13] Status.Ready).mpr (by decide),
    C4_get_status_mapping.2.2 [2, 77, 48, 57, 13] 57 (by decide)
      (by decide) (by decide) (by decide) (by decide) (by decide)⟩

/-- C5: enable fails immediately, without any status query, when the reply to
the EN command signals failure; otherwise it polls status while the status is
Enabling, and — the loop having exited after its first non-Enabling
observation, made at query index n — the call performs one final status
query and fails with the motorFaulted domain error exactly when that
terminal observation, at index n + 1, is Faulted, succeeding otherwise.
In particular, for a device that reports Enabling and then stays Faulted the
call fails with motorFaulted, and for one that reports Enabling and then
stays Ready it succeeds. -/
theorem C5_enable_semantics :
    (∀ (enReply : List Nat) (σ : Nat → List Nat) (fuel : Nat) (e : CCError),
      check_reply enReply = some (Except.error e) →
      enable enReply σ fuel = EnableResult.failed e)
    ∧ (∀ (enReply : List Nat) (σ : Nat → List Nat) (s : Nat → Status) (n fuel : Nat),
      check_reply enReply = some (Except.ok ()) →
      (∀ j, get_status (σ j) = some (Except.ok (s j))) →
      (∀ j, j < n → s j = Status.Enabling) →
      s n ≠ Status.Enabling →
      n < fuel →
      enable enReply σ fuel =
        if s (n + 1) = Status.Faulted then EnableResult.failed CCError.motorFaulted
        else EnableResult.ok) := by
  constructor
  · intro enReply σ fuel e h
    simp [enable, h]
  · intro enReply σ s n fuel hchk hσ henb hn hfuel
    have hpoll : pollWhile Status.Enabling σ 0 fuel = PollResult.exited (n + 1) :=
      pollWhile_exits σ s hσ fuel 0 n (Nat.zero_le n)
        (fun j _ hj => henb j hj) hn (by omega)
    simp [enable, hchk, hpoll, hσ (n + 1)]

/-- C5 status-reply oracle for the witness: the first status query is
answered with the Enabling reply STX M 0 1 CR, every later one with the
Faulted reply STX M 0 2 CR. -/
def enableFaultTrace : Nat → List Nat :=
  fun i => if i = 0 then [2, 77, 48, 49, 13] else [2, 77, 48, 50, 13]

/-- The statuses encoded by enableFaultTrace. -/
def enableFaultStatuses : Nat → Status :=
  fun i => if i = 0 then Status.Enabling else Status.Faulted

/-- C5 witness: with a successful EN reply and a device that reports Enabling
once and then stays Faulted, enable fails with the motorFaulted error. -/
theorem C5_enable_witness :
    enable [2, 77, 48, 65, 13] enableFaultTrace 3 = EnableResult.failed CCError.motorFaulted := by
  have h := C5_enable_semantics.2 [2, 77, 48, 65, 13] enableFaultTrace enableFaultStatuses
    1 3 rfl ?_ ?_ ?_ ?_
  · have h2 : enableFaultStatuses 2 = Status.Faulted := by decide
    rw [h, if_pos h2]
  · intro j
    rcases Nat.eq_zero_or_pos j with hj | hj
    · subst hj; rfl
    · have hne : j ≠ 0 := by omega
      simp only [enableFaultTrace, enableFaultStatuses, if_neg hne]
      rfl
  · intro j hj
    interval_cases j
    decide
  · decide
  · decide

/-- C6 counterexample: when the reply channel is closed without a reply, the
submit/wait operation SendRecv::write does not report an error result to its
caller — its return type has no error variant at all — it panics through the
expect call.  The closed-channel input is the explicit value none. -/
theorem C6_write_panics_on_closure :
    write none = WriteOutcome.panicNoMsgFromClient := rfl

/-- C6 (amended): when the reply channel delivers a reply, write returns it
verbatim and the operation fully succeeds; when the channel is closed
without a reply (transport failure), write panics with the No-MSG-from-client
expect message instead of reporting an error result to the caller. -/
theorem C6_write_amended :
    (∀ r : List Nat, write (some r) = WriteOutcome.reply r)
    ∧ write none = WriteOutcome.panicNoMsgFromClient :=
  ⟨fun _ => rfl, rfl⟩

/-- C7: for a motor with device index 2 and scale factor 1000, absolute_move
at 3/2 (the exact value of the f64 literal 1.5) writes exactly the bytes
STX M 2 A M 1 5 0 0 CR; and every encoded command is STX, the device-type
tag M, the ASCII digit of the device index, the two-letter command code, the
optional ASCII signed integer payload, then CR. -/
theorem C7_command_encoding :
    absolute_move_msg 2 1000 (3 / 2 : ℚ) = [2, 77, 50, 65, 77, 49, 53, 48, 48, 13]
    ∧ (∀ (id scale : Nat) (p : ℚ), ∃ payload,
        absolute_move_msg id scale p = [2, 77, id + 48] ++ [65, 77] ++ payload ++ [13])
    ∧ (∀ (id scale : Nat) (p : ℚ), ∃ payload,
        relative_move_msg id scale p = [2, 77, id + 48] ++ [82, 77] ++ payload ++ [13])
    ∧ (∀ (id scale : Nat) (p : ℚ), ∃ payload,
        jog_msg id scale p = [2, 77, id + 48] ++ [74, 71] ++ payload ++ [13])
    ∧ (∀ (id scale : Nat) (p : Int), ∃ payload,
        set_position_msg id scale p = [2, 77, id + 48] ++ [83, 80] ++ payload ++ [13])
    ∧ (∀ (id scale : Nat) (p : ℚ), ∃ payload,
        set_velocity_msg id scale p = [2, 77, id + 48] ++ [83, 86] ++ payload ++ [13])
    ∧ (∀ (id scale : Nat) (p : ℚ), ∃ payload,
        set_acceleration_msg id scale p = [2, 77, id + 48] ++ [83, 65] ++ payload ++ [13])
    ∧ (∀ (id scale : Nat) (p : ℚ), ∃ payload,
        set_deceleration_msg id scale p = [2, 77, id + 48] ++ [83, 68] ++ payload ++ [13])
    ∧ (∀ id : Nat,
        enable_cmd id = [2, 77, id + 48] ++ [69, 78] ++ [] ++ [13]
        ∧ disable_cmd id = [2, 77, id + 48] ++ [68, 69] ++ [] ++ [13]
        ∧ abrupt_stop_cmd id = [2, 77, id + 48] ++ [65, 83] ++ [] ++ [13]
        ∧ stop_cmd id = [2, 77, id + 48] ++ [83, 84] ++ [] ++ [13]
        ∧ get_status_cmd id = [2, 77, id + 48] ++ [71, 83] ++ [] ++ [13]
        ∧ get_position_cmd id = [2, 77, id + 48] ++ [71, 80] ++ [] ++ [13]
        ∧ clear_alerts_cmd id = [2, 77, id + 48] ++ [67, 65] ++ [] ++ [13]) := by
  refine ⟨?_, ?_, ?_, ?_, ?_, ?_, ?_, ?_, ?_⟩
  · have h : (3 / 2 : ℚ) * ((1000 : Nat) : ℚ) = ((1500 : Int) : ℚ) := by norm_num
    simp only [absolute_move_msg, h, truncToward0_intCast]
    decide
  · intro id scale p
    exact ⟨num_to_bytes (truncToward0 (p * (scale : ℚ))),
      by simp [absolute_move_msg, make_prefix]⟩
  · intro id scale p
    exact ⟨num_to_bytes (truncToward0 (p * (scale : ℚ))),
      by simp [relative_move_msg, make_prefix]⟩
  · intro id scale p
    exact ⟨num_to_bytes (truncToward0 (p * (scale : ℚ))),
      by simp [jog_msg, make_prefix]⟩
  · intro id scale p
    exact ⟨num_to_bytes (p * (scale : Int)),
      by simp [set_position_msg, make_prefix]⟩
  · intro id scale p
    exact ⟨num_to_bytes (truncToward0 ((if p < 0 then 0 else p) * (scale : ℚ))),
      by simp [set_velocity_msg, make_prefix]⟩
  · intro id scale p
    exact ⟨num_to_bytes (truncToward0 (p * (scale : ℚ))),
      by simp [set_acceleration_msg, make_prefix]⟩
  · intro id scale p
    exact ⟨num_to_bytes (truncToward0 (p * (scale : ℚ))),
      by simp [set_deceleration_msg, make_prefix]⟩
  · intro id
    refine ⟨?_, ?_, ?_, ?_, ?_, ?_, ?_⟩ <;>
      simp [enable_cmd, disable_cmd, abrupt_stop_cmd, stop_cmd,
        get_status_cmd, get_position_cmd, clear_alerts_cmd]

/-- C8: set_velocity clamps its argument to at least 0 before scaling: for
every velocity below 0 it sends exactly the bytes of set_velocity at 0, and
for every nonnegative velocity the payload is the scaled value truncated
toward zero. -/
theorem C8_set_velocity_clamp :
    (∀ (id scale : Nat) (v : ℚ), v < 0 →
      set_velocity_msg id scale v = set_velocity_msg id scale 0)
    ∧ (∀ (id scale : Nat) (v : ℚ), 0 ≤ v →
      set_velocity_msg id scale v =
        [2, 77, id + 48] ++ [83, 86] ++ num_to_bytes (truncToward0 (v * scale)) ++ [13]) := by
  constructor
  · intro id scale v hv
    simp [set_velocity_msg, hv]
  · intro id scale v hv
    simp [set_velocity_msg, make_prefix, not_lt.mpr hv]

/-- C8 witness: the clamp conjunct applied at velocity -1, and the
nonnegative conjunct applied at velocity 0. -/
theorem C8_set_velocity_witness :
    set_velocity_msg 0 1000 (-1 : ℚ) = set_velocity_msg 0 1000 0
    ∧ set_velocity_msg 0 1000 (0 : ℚ) =
      [2, 77, 0 + 48] ++ [83, 86] ++ num_to_bytes (truncToward0 ((0 : ℚ) * (1000 : Nat))) ++ [13] :=
  ⟨C8_set_velocity_clamp.1 0 1000 (-1) (by norm_num),
    C8_set_velocity_clamp.2 0 1000 0 (by norm_num)⟩

/-- C9: check_reply and get_status read the reply byte at offset 3 and
ascii_to_int reads byte 0 of its input unconditionally: on every reply of
length at least 4 (respectively every nonempty buffer) they return a value,
and on every shorter input they panic (the value none) instead of returning
an error. -/
theorem C9_short_reply_panics :
    (∀ reply : List Nat, 4 ≤ reply.length →
      (check_reply reply).isSome = true ∧ (get_status reply).isSome = true)
    ∧ (∀ reply : List Nat, reply.length < 4 →
      check_reply reply = none ∧ get_status reply = none)
    ∧ (∀ bytes : List Nat, bytes ≠ [] → (ascii_to_int bytes).isSome = true)
    ∧ ascii_to_int [] = none := by
  refine ⟨?_, ?_, ?_, rfl⟩
  · intro reply h
    have h3 : reply[3]? = some reply[3] := List.getElem?_eq_getElem (by omega)
    constructor
    · simp only [check_reply, h3]
      split_ifs <;> simp
    · simp [get_status, h3]
  · intro reply h
    have h3 : reply[3]? = none := List.getElem?_eq_none (by omega)
    exact ⟨by simp [check_reply, h3], by simp [get_status, h3]⟩
  · intro bytes h
    cases bytes with
    | nil => exact absurd rfl h
    | cons b bs => simp [ascii_to_int]

/-- C9 witness: a 5-byte reply decodes, the 3-byte and 2-byte replies panic,
and the parser returns a value on a single-digit buffer. -/
theorem C9_short_reply_witness :
    (check_reply [2, 77, 48, 65, 13]).isSome = true
    ∧ check_reply [2, 77, 48] = none
    ∧ get_status [2, 77] = none
    ∧ (ascii_to_int [49]).isSome = true :=
  ⟨(C9_short_reply_panics.1 [2, 77, 48, 65, 13] (by decide)).1,
    (C9_short_reply_panics.2.1 [2, 77, 48] (by decide)).1,
    (C9_short_reply_panics.2.1 [2, 77] (by decide)).2,
    C9_short_reply_panics.2.2.1 [49] (by decide)⟩

/-- C10: get_h_bridge returns the handle stored at index id - 4, so it
returns a handle exactly for id 4 and id 5; for id below 4 the unsigned
subtraction underflows and for id above 5 the index is out of bounds, and in
both cases the call panics (the value none) rather than returning an
error. -/
theorem C10_get_h_bridge_range :
    get_h_bridge 4 = some (HBridge.mk 4 32700)
    ∧ get_h_bridge 5 = some (HBridge.mk 5 32700)
    ∧ (∀ id : Nat, (get_h_bridge id).isSome = true ↔ (id = 4 ∨ id = 5))
    ∧ (∀ id : Nat, 4 ≤ id → get_h_bridge id = h_bridges[id - 4]?) := by
  refine ⟨by decide, by decide, ?_, ?_⟩
  · intro id
    unfold get_h_bridge
    split_ifs with h
    · simp
      omega
    · have hid : id = 4 ∨ id = 5 ∨ 6 ≤ id := by omega
      rcases hid with hid | hid | hid
      · subst hid; decide
      · subst hid; decide
      · have hnone : h_bridges[id - 4]? = none :=
          List.getElem?_eq_none (by simp [h_bridges]; omega)
        simp [hnone]
        omega
  · intro id h
    unfold get_h_bridge
    rw [if_neg (by omega)]

/-- C10 witness: the stored-index conjunct applied at id 9 (out of bounds,
hence none) and the characterization applied at id 2 (underflow, hence no
handle). -/
theorem C10_get_h_bridge_witness :
    get_h_bridge 9 = h_bridges[9 - 4]?
    ∧ ((get_h_bridge 2).isSome = true ↔ (2 = 4 ∨ 2 = 5)) :=
  ⟨C10_get_h_bridge_range.2.2.2 9 (by decide),
    C10_get_h_bridge_range.2.2.1 2⟩

end CC
